import Mathlib

/-!
Verification of the repository-sync and commit-extraction pipeline of
`git-analyzer.py` (functions `git_pull_or_clone` and
`analyze_real_git_commits`).

The code is shallowly embedded: every filesystem / network / git primitive
(`Repo(...)`, `repo.remotes.origin.pull()`, `shutil.rmtree`, `os.makedirs`,
`Repo.clone_from`, `repo.iter_commits`) is an oracle whose outcome is supplied
by an environment record, and the Python control flow (including which
`except` clause catches which exception class) is reproduced over those
outcomes.  Timestamps are integers (seconds); `datetime.now() -
timedelta(days=months_back * 30)` becomes integer arithmetic with
86400-second days.
-/

/-- One commit as exposed by GitPython: `commit.hexsha`, `commit.author.name`,
`commit.author.email`, `commit.authored_date` (seconds since epoch),
`len(commit.parents)` and `commit.message`. -/
structure Commit where
  hexsha : String
  author_name : String
  author_email : String
  authored_date : Int
  parents : Nat
  message : String
deriving DecidableEq

/-- One entry of `repo_commits_list`: the dict
`{"hash": ..., "author_name": ..., "author_email": ..., "date": ...,
"message": ...}` built in the extraction loop.  The `date` field abstracts the
rendered `fromtimestamp(...).isoformat()` string as the underlying instant. -/
structure CommitRecord where
  hash : String
  author_name : String
  author_email : String
  date : Int
  message : String
deriving DecidableEq

/-- One entry of `all_repo_commits_structured`.  A dict key that is absent is
`none`; a key that is present holds `some` value (so an error entry, which the
source writes with both an `"error"` key and a `"commits": []` key, has both
fields `some`). -/
structure Report where
  repo_name : String
  repo_url : String
  error : Option String
  commits : Option (List CommitRecord)
deriving DecidableEq

/-- The dict returned by `analyze_real_git_commits`: either
`{"commit_data": ..., "message": ...}` or, from the outer `except Exception`,
`{"error": ...}`. -/
structure AnalyzeResult where
  commitData : Option (List Report)
  message : Option String
  topError : Option String
deriving DecidableEq

/-- Python exception classes that the source distinguishes by `except` clause. -/
inductive PyErr where
  | gitCmd (msg : String)
  | invalidRepo
  | noSuchPath
  | osErr (msg : String)
  | other (msg : String)
deriving DecidableEq

/-- Outcomes of the primitives used by `git_pull_or_clone`, supplied by the
environment.  `openRepo` is `Repo(abs_repo_path)`, `pull` is
`repo.remotes.origin.pull()`, `rmtree` is `shutil.rmtree(abs_repo_path)`,
`makedirs` is the `os.makedirs(parent_dir)` step inside `_perform_clone`,
`cloneFrom` is `Repo.clone_from(url, path)`, `pathExists` is
`os.path.exists(abs_repo_path)`, and `hasRemote` is the truthiness of
`remote_url`. -/
structure SyncEnv where
  openRepo : Except PyErr Unit
  pull : Except PyErr Unit
  pathExists : Bool
  rmtree : Except PyErr Unit
  makedirs : Except PyErr Unit
  cloneFrom : Except PyErr Unit
  hasRemote : Bool

/-- Trace of the fallback path of `git_pull_or_clone`: whether
`shutil.rmtree` was called, and how many times `_perform_clone` was invoked. -/
structure SyncTrace where
  rmtreeCalled : Bool
  cloneAttempts : Nat
deriving DecidableEq

/-- Outcome of iterating `repo.iter_commits(...)` in the analysis block:
either the iteration completes, or it raises `GitCommandError`, or it raises
some other exception. -/
inductive IterOutcome where
  | ok
  | gitErr (msg : String)
  | otherErr (msg : String)

/-- Per-repository environment for `analyze_real_git_commits`: the sync
primitives, the commit list that `iter_commits` would traverse (newest first),
and whether the traversal itself raises. -/
structure RepoEnv where
  sync : SyncEnv
  commits : List Commit
  iter : IterOutcome

/- ---------- string primitives used by the source ---------- -/

/-- Python `needle in hay` on strings: `pat` occurs as a contiguous substring
(the empty needle always occurs). -/
def strContainsList (pat : List Char) : List Char → Bool
  | [] => pat.isEmpty
  | c :: rest => List.isPrefixOf pat (c :: rest) || strContainsList pat rest

/-- Python `str.lower()` (ASCII letters; the commits under test are ASCII). -/
def lowerList (s : List Char) : List Char := s.map Char.toLower

/-- Python `str.strip()` whitespace test. -/
def pyStripChar (c : Char) : Bool :=
  c == ' ' || c == '\t' || c == '\n' || c == '\r' || c == '\x0b' || c == '\x0c'

/-- Python `str.strip()`: drop leading and trailing whitespace. -/
def pyStrip (s : List Char) : List Char :=
  ((s.dropWhile pyStripChar).reverse.dropWhile pyStripChar).reverse

/-- Python `str.split(sep)` for a one-character separator (always returns a
non-empty list of segments, keeping empty segments). -/
def splitOnChar (sep : Char) : List Char → List (List Char)
  | [] => [[]]
  | c :: rest =>
    let r := splitOnChar sep rest
    if c = sep then [] :: r
    else
      match r with
      | [] => [[c]]
      | h :: t => (c :: h) :: t

/-- The pattern of `repo_url.split("/")[-1].replace(".git", "")`. -/
def gitPat : List Char := ['.', 'g', 'i', 't']

/-- Python `str.replace(pat, "")` with explicit fuel (one unit per examined
character suffices): scan left to right, drop every non-overlapping
occurrence of `pat`, resume after the dropped occurrence. -/
def removeAllFuel (pat : List Char) : Nat → List Char → List Char
  | 0, s => s
  | fuel + 1, s =>
    match s with
    | [] => []
    | c :: rest =>
      if List.isPrefixOf pat (c :: rest) then
        removeAllFuel pat fuel (List.drop (pat.length - 1) rest)
      else c :: removeAllFuel pat fuel rest

/-- Python `str.replace(pat, "")` (for non-empty `pat`). -/
def removeAll (pat s : List Char) : List Char := removeAllFuel pat s.length s

/-- Python `repo_url.split("/")[-1]`. -/
def lastSegment (s : List Char) : List Char := (splitOnChar '/' s).getLastD []

/-- The source's `repo_name = repo_url.split("/")[-1].replace(".git", "")`. -/
def repoNameOfUrl (url : String) : String :=
  String.mk (removeAll gitPat (lastSegment url.toList))

/- ---------- git_pull_or_clone ---------- -/

/-- The nested `_perform_clone(url, path)` helper: the `os.makedirs` /
`Repo.clone_from` attempt, with `except GitCommandError` and
`except Exception` both returning `None`.  Every exception is caught, so the
result is always `Except.ok`. -/
def performCloneT (env : SyncEnv) : Except PyErr (Option Unit) :=
  match env.makedirs with
  | Except.error _ => Except.ok none
  | Except.ok _ =>
    match env.cloneFrom with
    | Except.ok _ => Except.ok (some ())
    | Except.error (PyErr.gitCmd _) => Except.ok none
    | Except.error _ => Except.ok none

/-- `git_pull_or_clone(remote_url, repo_path)` together with a trace of the
fallback path.  The `Except` layer records which outcomes would propagate as
exceptions to the caller; the source's handler structure
(`except GitCommandError` around the pull, `except OSError` around the rmtree,
`except (InvalidGitRepositoryError, NoSuchPathError)` and `except Exception`
around the whole body — the latter also catching exceptions raised inside the
nested pull-failure handler) makes every branch return `Except.ok`. -/
def gitPullOrCloneT (env : SyncEnv) : Except PyErr (Option Unit) × SyncTrace :=
  match env.openRepo with
  | Except.ok _ =>
    match env.pull with
    | Except.ok _ => (Except.ok (some ()), ⟨false, 0⟩)
    | Except.error (PyErr.gitCmd _) =>
      if env.hasRemote then
        if env.pathExists then
          match env.rmtree with
          | Except.ok _ => (performCloneT env, ⟨true, 1⟩)
          | Except.error (PyErr.osErr _) => (Except.ok none, ⟨true, 0⟩)
          | Except.error _ => (Except.ok none, ⟨true, 0⟩)
        else (performCloneT env, ⟨false, 1⟩)
      else (Except.ok none, ⟨false, 0⟩)
    | Except.error _ => (Except.ok none, ⟨false, 0⟩)
  | Except.error PyErr.invalidRepo =>
    if env.hasRemote then (performCloneT env, ⟨false, 1⟩)
    else (Except.ok none, ⟨false, 0⟩)
  | Except.error PyErr.noSuchPath =>
    if env.hasRemote then (performCloneT env, ⟨false, 1⟩)
    else (Except.ok none, ⟨false, 0⟩)
  | Except.error _ => (Except.ok none, ⟨false, 0⟩)

/-- The value `git_pull_or_clone` hands back to its caller (its trace
projected away). -/
def gitPullOrCloneE (env : SyncEnv) : Except PyErr (Option Unit) :=
  (gitPullOrCloneT env).1

/- ---------- commit extraction ---------- -/

/-- The driver's `since_date = datetime.datetime.now() -
datetime.timedelta(days=months_back * 30)`, over integer seconds. -/
def sinceDate (now : Int) (months_back : Int) : Int :=
  now - months_back * 30 * 86400

/-- `repo.iter_commits(since=since_date, no_merges=True)`: the environment's
commit list is the traversal order (newest first); `no_merges` drops commits
with more than one parent, `since` keeps commits dated at or after the
cut-off (the exact boundary convention belongs to the underlying tool; the
properties proved below do not depend on it). -/
def iterCommits (since : Int) (commits : List Commit) : List Commit :=
  commits.filter fun c => decide (c.parents ≤ 1) && decide (since ≤ c.authored_date)

/-- The case-insensitive company filter of the extraction loop:
`company_identifier.lower() in author_name.lower() or
company_identifier.lower() in author_email.lower()`. -/
def matchesCompany (company_identifier : String) (c : Commit) : Bool :=
  strContainsList (lowerList company_identifier.toList) (lowerList c.author_name.toList)
  || strContainsList (lowerList company_identifier.toList) (lowerList c.author_email.toList)

/-- The dict appended to `repo_commits_list` for a kept commit. -/
def toCommitRecord (c : Commit) : CommitRecord :=
  { hash := c.hexsha
    author_name := c.author_name
    author_email := c.author_email
    date := c.authored_date
    message := String.mk (pyStrip c.message.toList) }

/-- The extraction loop body: walk the traversed commits, keep those matching
the company filter, in order. -/
def collectCompanyCommits (company_identifier : String) : List Commit → List CommitRecord
  | [] => []
  | c :: rest =>
    if matchesCompany company_identifier c then
      toCommitRecord c :: collectCompanyCommits company_identifier rest
    else collectCompanyCommits company_identifier rest

/- ---------- analyze_real_git_commits ---------- -/

/-- The message of the `AttributeError` Python raises when the analysis block
calls `repo.iter_commits` on the `None` returned by a failed
`git_pull_or_clone`. -/
def noneAttrMsg : String :=
  "\x27NoneType\x27 object has no attribute \x27iter_commits\x27"

/-- `str(e)` for the modelled exception values. -/
def pyErrMsg : PyErr → String
  | PyErr.gitCmd m => m
  | PyErr.invalidRepo => "InvalidGitRepositoryError"
  | PyErr.noSuchPath => "NoSuchPathError"
  | PyErr.osErr m => m
  | PyErr.other m => m

/-- The two `except` branches guarding the `git_pull_or_clone(...)` call in
`analyze_real_git_commits` (reached only if that call raises). -/
def cloneExcReport (url : String) : PyErr → Report
  | PyErr.gitCmd m =>
    { repo_name := repoNameOfUrl url
      repo_url := url
      error := some ("Failed to clone: " ++ m)
      commits := some [] }
  | e =>
    { repo_name := repoNameOfUrl url
      repo_url := url
      error := some ("An unexpected error occurred during cloning: " ++ pyErrMsg e)
      commits := some [] }

/-- The analysis block of the per-repository loop: iterate
`repo.iter_commits(since=since_date, no_merges=True)`, filter by the company
identifier, and append either the success entry or one of the two error
entries (`except GitCommandError`, `except Exception`).  When the sync step
returned `None`, the attribute access `repo.iter_commits` raises
`AttributeError`, which lands in the generic `except Exception` branch. -/
def analysisBlock (company_identifier : String) (since : Int) (url : String)
    (env : RepoEnv) : Option Unit → Report
  | none =>
    { repo_name := repoNameOfUrl url
      repo_url := url
      error := some ("Error processing commits: " ++ noneAttrMsg)
      commits := some [] }
  | some _ =>
    match env.iter with
    | IterOutcome.ok =>
      { repo_name := repoNameOfUrl url
        repo_url := url
        error := none
        commits := some (collectCompanyCommits company_identifier (iterCommits since env.commits)) }
    | IterOutcome.gitErr m =>
      { repo_name := repoNameOfUrl url
        repo_url := url
        error := some ("Failed to get commit log: " ++ m)
        commits := some [] }
    | IterOutcome.otherErr m =>
      { repo_name := repoNameOfUrl url
        repo_url := url
        error := some ("Error processing commits: " ++ m)
        commits := some [] }

/-- One iteration of the `for repo_url in repo_urls` loop. -/
def processRepo (company_identifier : String) (since : Int) (url : String)
    (env : RepoEnv) : Report :=
  match gitPullOrCloneE env.sync with
  | Except.error e => cloneExcReport url e
  | Except.ok oh => analysisBlock company_identifier since url env oh

/-- The whole `for repo_url in repo_urls` loop; `envf i` is the environment of
the `i`-th iteration. -/
def analyzeLoop (company_identifier : String) (since : Int) (envf : Nat → RepoEnv) :
    List String → Nat → List Report
  | [], _ => []
  | url :: rest, i =>
    processRepo company_identifier since url (envf i)
      :: analyzeLoop company_identifier since envf rest (i + 1)

/-- `analyze_real_git_commits(repo_urls, company_identifier, months_back,
deploy_dir_name)`.  `setupExc` is the outcome of the run-level setup inside
the outer `try` (`os.makedirs(deploy_target_dir, exist_ok=True)`): `some m`
means it raised with message `m`, landing in the outer `except Exception`
which returns the `{"error": ...}` dict; `now` is `datetime.datetime.now()`. -/
def analyzeRealGitCommits (repo_urls : List String) (company_identifier : String)
    (months_back : Int) (now : Int) (setupExc : Option String)
    (envf : Nat → RepoEnv) : AnalyzeResult :=
  match setupExc with
  | some m =>
    { commitData := none
      message := none
      topError := some ("An unexpected error occurred: " ++ m) }
  | none =>
    { commitData :=
        some (analyzeLoop company_identifier (sinceDate now months_back) envf repo_urls 0)
      message := some "Commit analysis complete."
      topError := none }

/- ---------- concrete environments used by witnesses and counterexamples ---------- -/

/-- A sync environment in which nothing is on disk and the clone from scratch
fails with a git error: `git_pull_or_clone` returns `None`. -/
def cloneFailSyncEnv : SyncEnv :=
  { openRepo := Except.error PyErr.noSuchPath
    pull := Except.ok ()
    pathExists := false
    rmtree := Except.ok ()
    makedirs := Except.ok ()
    cloneFrom := Except.error (PyErr.gitCmd "fatal: repository not found")
    hasRemote := true }

/-- Per-repository environment whose sync step fails (clone error). -/
def cloneFailRepoEnv : RepoEnv :=
  { sync := cloneFailSyncEnv, commits := [], iter := IterOutcome.ok }

/-- A sync environment in which every primitive succeeds. -/
def okSyncEnv : SyncEnv :=
  { openRepo := Except.ok ()
    pull := Except.ok ()
    pathExists := true
    rmtree := Except.ok ()
    makedirs := Except.ok ()
    cloneFrom := Except.ok ()
    hasRemote := true }

/-- Per-repository environment with a successful sync and given history. -/
def okRepoEnv (cs : List Commit) : RepoEnv :=
  { sync := okSyncEnv, commits := cs, iter := IterOutcome.ok }

/-- A sync environment holding a valid working copy whose pull fails with a
`GitCommandError`, with a remote URL supplied and the path present. -/
def pullFailSyncEnv : SyncEnv :=
  { openRepo := Except.ok ()
    pull := Except.error (PyErr.gitCmd "fatal: unable to access remote")
    pathExists := true
    rmtree := Except.ok ()
    makedirs := Except.ok ()
    cloneFrom := Except.ok ()
    hasRemote := true }

/-- A non-merge commit authored 29 days before the fixed instant 1000000000. -/
def commit29 : Commit :=
  { hexsha := "aaa111"
    author_name := "Alice Smith"
    author_email := "alice@corp.io"
    authored_date := 1000000000 - 29 * 86400
    parents := 1
    message := "fix" }

/-- A non-merge commit authored 31 days before the fixed instant 1000000000. -/
def commit31 : Commit :=
  { hexsha := "bbb222"
    author_name := "Alice Smith"
    author_email := "alice@corp.io"
    authored_date := 1000000000 - 31 * 86400
    parents := 1
    message := "feat" }

/- ---------- helper lemmas ---------- -/

/-- The empty needle occurs in every haystack (Python `"" in s`). -/
theorem strContainsList_nil (hay : List Char) : strContainsList [] hay = true := by
  induction hay with
  | nil => rfl
  | cons c rest ih => simp [strContainsList, List.isPrefixOf]

/-- `removeAllFuel` on the empty list is the empty list, whatever the fuel. -/
theorem removeAllFuel_nil (pat : List Char) (fuel : Nat) :
    removeAllFuel pat fuel [] = [] := by
  cases fuel <;> rfl

/-- A string with no occurrence of the pattern is left untouched. -/
theorem removeAllFuel_not_contains (pat : List Char) :
    ∀ (fuel : Nat) (s : List Char), strContainsList pat s = false →
      removeAllFuel pat fuel s = s := by
  intro fuel
  induction fuel with
  | zero => intro s _; rfl
  | succ f ih =>
    intro s h
    cases s with
    | nil => rfl
    | cons c rest =>
      have h2 : (List.isPrefixOf pat (c :: rest) || strContainsList pat rest) = false := h
      rw [Bool.or_eq_false_iff] at h2
      simp [removeAllFuel, h2.1, ih rest h2.2]

/-- `.git` cannot overlap itself across a boundary: if `.git` is not a prefix
of `c :: b`, it is not a prefix of `c :: (b ++ ".git")` either. -/
theorem gitPat_no_span (c : Char) (b : List Char)
    (h : List.isPrefixOf gitPat (c :: b) = false) :
    List.isPrefixOf gitPat (c :: (b ++ gitPat)) = false := by
  rcases b with _ | ⟨d, _ | ⟨e, _ | ⟨f, rest⟩⟩⟩
  · have hg : (('g' : Char) == '.') = false := by decide
    simp [gitPat, List.isPrefixOf, hg]
  · have hi : (('i' : Char) == '.') = false := by decide
    simp [gitPat, List.isPrefixOf, hi]
  · have ht : (('t' : Char) == '.') = false := by decide
    simp [gitPat, List.isPrefixOf, ht]
  · simp only [gitPat, List.isPrefixOf, List.cons_append, Bool.and_eq_false_imp] at h ⊢
    intro h1 h2 h3
    exact h h1 h2 h3

/-- Dropping three characters of `git` after matching the leading dot leaves
nothing: removing the pattern from `base ++ ".git"` gives back `base` whenever
`base` itself has no occurrence of `.git` (enough fuel supplied). -/
theorem removeAllFuel_append_gitPat :
    ∀ (base : List Char) (fuel : Nat), base.length + 1 ≤ fuel →
      strContainsList gitPat base = false →
      removeAllFuel gitPat fuel (base ++ gitPat) = base := by
  intro base
  induction base with
  | nil =>
    intro fuel hf _
    match fuel, hf with
    | f + 1, _ =>
      have hp : List.isPrefixOf gitPat gitPat = true := by decide
      simp [removeAllFuel, gitPat, List.isPrefixOf, removeAllFuel_nil]
  | cons c b ih =>
    intro fuel hf hc
    match fuel, hf with
    | f + 1, hf =>
      have h2 : (List.isPrefixOf gitPat (c :: b) || strContainsList gitPat b) = false := hc
      rw [Bool.or_eq_false_iff] at h2
      have hnp := gitPat_no_span c b h2.1
      have hfb : b.length + 1 ≤ f := by
        simp only [List.length_cons] at hf
        omega
      simp [removeAllFuel, List.cons_append, hnp, ih f hfb h2.2]

/-- `removeAll` (Python `replace(".git", "")`) strips a trailing `.git` from a
segment that contains no other occurrence of `.git`. -/
theorem removeAll_append_gitPat (base : List Char)
    (hc : strContainsList gitPat base = false) :
    removeAll gitPat (base ++ gitPat) = base := by
  unfold removeAll
  apply removeAllFuel_append_gitPat base ((base ++ gitPat).length) _ hc
  simp [gitPat]

/-- `_perform_clone` catches every exception: it always returns (never raises). -/
theorem performCloneT_total (env : SyncEnv) :
    ∃ b, performCloneT env = Except.ok b := by
  unfold performCloneT
  rcases hm : env.makedirs with e | u
  · exact ⟨none, rfl⟩
  · rcases hc : env.cloneFrom with e | u'
    · rcases e <;> exact ⟨none, rfl⟩
    · exact ⟨some (), rfl⟩

/-- `git_pull_or_clone` catches every exception: it always returns a value
(a handle or `None`) and never propagates an exception to its caller. -/
theorem gitPullOrCloneE_total (env : SyncEnv) :
    ∃ b, gitPullOrCloneE env = Except.ok b := by
  unfold gitPullOrCloneE gitPullOrCloneT
  rcases ho : env.openRepo with e | u
  · rcases e with m | _ | _ | m | m
    · exact ⟨none, rfl⟩
    · rcases hr : env.hasRemote
      · exact ⟨none, rfl⟩
      · obtain ⟨b, hb⟩ := performCloneT_total env
        exact ⟨b, by simp [hb]⟩
    · rcases hr : env.hasRemote
      · exact ⟨none, rfl⟩
      · obtain ⟨b, hb⟩ := performCloneT_total env
        exact ⟨b, by simp [hb]⟩
    · exact ⟨none, rfl⟩
    · exact ⟨none, rfl⟩
  · rcases hp : env.pull with e | u'
    · rcases e with m | _ | _ | m | m
      · rcases hr : env.hasRemote
        · exact ⟨none, rfl⟩
        · rcases hx : env.pathExists
          · obtain ⟨b, hb⟩ := performCloneT_total env
            exact ⟨b, by simp [hb]⟩
          · rcases hrm : env.rmtree with e' | u''
            · rcases e' <;> exact ⟨none, rfl⟩
            · obtain ⟨b, hb⟩ := performCloneT_total env
              exact ⟨b, by simp [hb]⟩
      · exact ⟨none, rfl⟩
      · exact ⟨none, rfl⟩
      · exact ⟨none, rfl⟩
      · exact ⟨none, rfl⟩
    · exact ⟨some (), rfl⟩

/-- Every branch of the per-repository step labels its entry with the input
URL and the derived short name. -/
theorem processRepo_labels (company_identifier : String) (since : Int)
    (url : String) (env : RepoEnv) :
    (processRepo company_identifier since url env).repo_url = url
    ∧ (processRepo company_identifier since url env).repo_name = repoNameOfUrl url := by
  unfold processRepo
  rcases hs : gitPullOrCloneE env.sync with e | oh
  · rcases e <;> exact ⟨rfl, rfl⟩
  · rcases oh with _ | u
    · exact ⟨rfl, rfl⟩
    · unfold analysisBlock
      rcases env.iter <;> exact ⟨rfl, rfl⟩

/-- The extraction loop is a filter-and-map over the traversed commits. -/
theorem collectCompanyCommits_eq_filter_map (company_identifier : String)
    (l : List Commit) :
    collectCompanyCommits company_identifier l
      = (l.filter (matchesCompany company_identifier)).map toCommitRecord := by
  induction l with
  | nil => rfl
  | cons c rest ih =>
    by_cases h : matchesCompany company_identifier c = true
    · simp [collectCompanyCommits, List.filter_cons, h, ih]
    · rw [Bool.not_eq_true] at h
      simp [collectCompanyCommits, List.filter_cons, h, ih]

/-- Pre-filtering out merge commits does not change the traversal. -/
theorem iterCommits_filter_merges (since : Int) (commits : List Commit) :
    iterCommits since (commits.filter fun c => decide (c.parents ≤ 1))
      = iterCommits since commits := by
  unfold iterCommits
  induction commits with
  | nil => rfl
  | cons c rest ih =>
    by_cases hp : c.parents ≤ 1
    · simp [List.filter_cons, hp, ih]
    · simp [List.filter_cons, hp, ih]

/-- The per-repository loop emits the input URLs, in order. -/
theorem analyzeLoop_map_url (company_identifier : String) (since : Int)
    (envf : Nat → RepoEnv) :
    ∀ (urls : List String) (i : Nat),
      (analyzeLoop company_identifier since envf urls i).map Report.repo_url = urls := by
  intro urls
  induction urls with
  | nil => intro i; rfl
  | cons u rest ih =>
    intro i
    simp [analyzeLoop, List.map_cons, (processRepo_labels company_identifier since u (envf i)).1, ih (i + 1)]

/- ---------- claims ---------- -/

/-- C1: for every non-empty input list of repository URLs (and any outcomes of
the individual syncs and extractions), `analyze_real_git_commits` returns a
`commit_data` list with exactly one report entry per input URL, in input
order — no repository is dropped. -/
theorem analyze_completeness (repo_urls : List String) (company_identifier : String)
    (months_back : Int) (now : Int) (envf : Nat → RepoEnv)
    (h : repo_urls ≠ []) :
    ∃ rs : List Report,
      (analyzeRealGitCommits repo_urls company_identifier months_back now none envf).commitData
        = some rs
      ∧ rs.map Report.repo_url = repo_urls
      ∧ rs.length = repo_urls.length := by
  refine ⟨analyzeLoop company_identifier (sinceDate now months_back) envf repo_urls 0, rfl, ?_, ?_⟩
  · exact analyzeLoop_map_url company_identifier (sinceDate now months_back) envf repo_urls 0
  · have := analyzeLoop_map_url company_identifier (sinceDate now months_back) envf repo_urls 0
    calc (analyzeLoop company_identifier (sinceDate now months_back) envf repo_urls 0).length
        = ((analyzeLoop company_identifier (sinceDate now months_back) envf repo_urls 0).map Report.repo_url).length := by
          rw [List.length_map]
      _ = repo_urls.length := by rw [this]

/-- Witness for C1 at a concrete two-URL run whose syncs both fail. -/
theorem analyze_completeness_witness :
    ∃ rs : List Report,
      (analyzeRealGitCommits ["https://h/a.git", "https://h/b.git"] "corp" 1 0 none
          (fun _ => cloneFailRepoEnv)).commitData = some rs
      ∧ rs.map Report.repo_url = ["https://h/a.git", "https://h/b.git"]
      ∧ rs.length = (["https://h/a.git", "https://h/b.git"] : List String).length :=
  analyze_completeness ["https://h/a.git", "https://h/b.git"] "corp" 1 0
    (fun _ => cloneFailRepoEnv) (by decide)

/-- C2: when the path holds a valid working copy, the pull fails with a
`GitCommandError`, a remote URL is supplied and the path exists, then: if the
directory removal succeeds, the tree is removed and a fresh clone is attempted
exactly once; if the removal fails, no clone attempt is made and the call
returns the failure value `None` (the outcome the spec labels
`SyncError::Cleanup`) — it never clones into the unremoved directory. -/
theorem sync_fallback (env : SyncEnv)
    (hopen : env.openRepo = Except.ok ())
    (hpull : ∃ m, env.pull = Except.error (PyErr.gitCmd m))
    (hrem : env.hasRemote = true)
    (hex : env.pathExists = true) :
    (env.rmtree = Except.ok () → (gitPullOrCloneT env).2 = ⟨true, 1⟩)
    ∧ (∀ m, env.rmtree = Except.error (PyErr.osErr m) →
        (gitPullOrCloneT env).2 = ⟨true, 0⟩
        ∧ (gitPullOrCloneT env).1 = Except.ok none) := by
  obtain ⟨m, hm⟩ := hpull
  constructor
  · intro hrm
    simp [gitPullOrCloneT, hopen, hm, hrem, hex, hrm]
  · intro m' hrm
    simp [gitPullOrCloneT, hopen, hm, hrem, hex, hrm]

/-- Witness for C2: concrete pull-failure environment with successful cleanup. -/
theorem sync_fallback_witness :
    (gitPullOrCloneT pullFailSyncEnv).2 = ⟨true, 1⟩ :=
  (sync_fallback pullFailSyncEnv rfl ⟨"fatal: unable to access remote", rfl⟩ rfl rfl).1 rfl

/-- C10: `git_pull_or_clone` returns a repository handle or `None` for every
environment and never propagates an exception to its caller; consequently the
`except GitCommandError` branch guarding the sync call in
`analyze_real_git_commits` is unreachable — every per-repository entry is
produced by the analysis block, never by `cloneExcReport`. -/
theorem sync_never_raises :
    (∀ env : SyncEnv, ∃ b, gitPullOrCloneE env = Except.ok b)
    ∧ (∀ (company_identifier : String) (since : Int) (url : String) (env : RepoEnv),
        ∃ oh, gitPullOrCloneE env.sync = Except.ok oh
          ∧ processRepo company_identifier since url env
              = analysisBlock company_identifier since url env oh) := by
  constructor
  · exact gitPullOrCloneE_total
  · intro company_identifier since url env
    obtain ⟨oh, hoh⟩ := gitPullOrCloneE_total env.sync
    exact ⟨oh, hoh, by simp [processRepo, hoh]⟩

/-- C5: over the traversed (in-window, non-merge) commits, a commit is kept
exactly when the lowercased identifier is a substring of the lowercased
author name or of the lowercased author address, and the kept records appear
in traversal order (the output is the order-preserving filter of the
traversal). -/
theorem commit_filter_correctness (company_identifier : String) (since : Int)
    (commits : List Commit) :
    collectCompanyCommits company_identifier (iterCommits since commits)
      = (commits.filter fun c =>
          (decide (c.parents ≤ 1) && decide (since ≤ c.authored_date))
          && matchesCompany company_identifier c).map toCommitRecord := by
  induction commits with
  | nil => rfl
  | cons c rest ih =>
    unfold iterCommits at *
    by_cases hw : (decide (c.parents ≤ 1) && decide (since ≤ c.authored_date)) = true
    · by_cases hm : matchesCompany company_identifier c = true
      · simp [List.filter_cons, hw, hm, collectCompanyCommits, ih]
      · simp [List.filter_cons, hw, hm, collectCompanyCommits, ih]
    · simp [List.filter_cons, hw, collectCompanyCommits, ih]

/-- C6: the cut-off is `now - months_back * 30 days` (fixed 30-day months),
so with `months_back = 1` a non-merge commit authored 29 days before `now` is
traversed and one authored 31 days before `now` is not. -/
theorem window_boundary (now : Int) (c29 c31 : Commit)
    (h1 : c29.parents ≤ 1) (h2 : c31.parents ≤ 1)
    (hd1 : c29.authored_date = now - 29 * 86400)
    (hd2 : c31.authored_date = now - 31 * 86400) :
    sinceDate now 1 = now - 30 * 86400
    ∧ iterCommits (sinceDate now 1) [c29] = [c29]
    ∧ iterCommits (sinceDate now 1) [c31] = [] := by
  have hs : sinceDate now 1 = now - 30 * 86400 := by unfold sinceDate; ring
  refine ⟨hs, ?_, ?_⟩
  · have hin : sinceDate now 1 ≤ c29.authored_date := by rw [hs, hd1]; omega
    simp [iterCommits, List.filter_cons, h1, hin]
  · have hout : ¬ (sinceDate now 1 ≤ c31.authored_date) := by rw [hs, hd2]; omega
    simp [iterCommits, List.filter_cons, h2, hout]

/-- Witness for C6 at a fixed `now` and two concrete commits. -/
theorem window_boundary_witness :
    sinceDate 1000000000 1 = 1000000000 - 30 * 86400
    ∧ iterCommits (sinceDate 1000000000 1) [commit29] = [commit29]
    ∧ iterCommits (sinceDate 1000000000 1) [commit31] = [] :=
  window_boundary 1000000000 commit29 commit31 (by decide) (by decide)
    (by decide) (by decide)

/-- C7: commits with more than one parent never survive the traversal —
every traversed commit has at most one parent, and deleting the merge commits
from the history beforehand changes neither the traversal nor the extractor's
output, whatever their dates or authors. -/
theorem merge_exclusion (since : Int) (company_identifier : String)
    (commits : List Commit) :
    ((iterCommits since commits).all fun c => decide (c.parents ≤ 1)) = true
    ∧ iterCommits since (commits.filter fun c => decide (c.parents ≤ 1))
        = iterCommits since commits
    ∧ collectCompanyCommits company_identifier
          (iterCommits since (commits.filter fun c => decide (c.parents ≤ 1)))
        = collectCompanyCommits company_identifier (iterCommits since commits) := by
  refine ⟨?_, iterCommits_filter_merges since commits, by rw [iterCommits_filter_merges]⟩
  simp only [iterCommits, List.all_eq_true]
  intro c hc
  rw [List.mem_filter] at hc
  have h2 := hc.2
  rw [Bool.and_eq_true] at h2
  exact h2.1

/-- C3 (counterexample): an entry produced for a repository whose sync fails
carries BOTH a populated error field and a (empty-list) commits field — the
two fields are not mutually exclusive in the emitted dicts. -/
theorem report_both_fields_counterexample :
    ∃ r, r ∈ (analyzeRealGitCommits ["https://h/o/r.git"] "acme" 1 0 none
          (fun _ => cloneFailRepoEnv)).commitData.getD []
      ∧ r.error.isSome = true ∧ r.commits.isSome = true := by
  refine ⟨{ repo_name := "r"
            repo_url := "https://h/o/r.git"
            error := some ("Error processing commits: " ++ noneAttrMsg)
            commits := some [] }, by decide, by decide, by decide⟩

/-- C3 (amended): every entry carries a commits field; an entry with an error
carries the empty commit list alongside it (so error and a NON-EMPTY commit
list never coexist), and an entry without an error is the success entry. -/
theorem report_fields_amended (company_identifier : String) (since : Int)
    (url : String) (env : RepoEnv) :
    (processRepo company_identifier since url env).commits.isSome = true
    ∧ ((processRepo company_identifier since url env).error = none
       ∨ (processRepo company_identifier since url env).commits = some []) := by
  unfold processRepo
  rcases hs : gitPullOrCloneE env.sync with e | oh
  · rcases e <;> exact ⟨rfl, Or.inr rfl⟩
  · rcases oh with _ | u
    · exact ⟨rfl, Or.inr rfl⟩
    · unfold analysisBlock
      rcases env.iter with _ | m | m
      · exact ⟨rfl, Or.inl rfl⟩
      · exact ⟨rfl, Or.inr rfl⟩
      · exact ⟨rfl, Or.inr rfl⟩

/-- C4 (counterexample): when the sync (clone) fails, the emitted entry's
error does NOT carry the clone-failure detail — it does not even start with
"Failed to clone" (that branch is dead; the entry instead reports the
attribute error raised by calling `iter_commits` on `None`). -/
theorem clone_error_message_counterexample :
    ∃ r, r ∈ (analyzeRealGitCommits ["https://h/o/r.git"] "acme" 1 0 none
          (fun _ => cloneFailRepoEnv)).commitData.getD []
      ∧ r.error.isSome = true
      ∧ r.error.any (fun m => List.isPrefixOf ("Failed to clone".toList) m.toList)
          = false := by
  refine ⟨{ repo_name := "r"
            repo_url := "https://h/o/r.git"
            error := some ("Error processing commits: " ++ noneAttrMsg)
            commits := some [] }, by decide, by decide, by decide⟩

/-- C4 (amended): a repository whose sync fails (i.e. `git_pull_or_clone`
returns `None`) still yields one report entry with an error and an empty
commit list, and the loop continues with the next repository — but the error
is the generic "Error processing commits:" message from the failed attribute
access on the absent handle, not the clone detail. -/
theorem sync_failure_report_amended (company_identifier : String) (since : Int)
    (url : String) (env : RepoEnv)
    (h : gitPullOrCloneE env.sync = Except.ok none) :
    processRepo company_identifier since url env
      = { repo_name := repoNameOfUrl url
          repo_url := url
          error := some ("Error processing commits: " ++ noneAttrMsg)
          commits := some [] }
    ∧ ∀ (rest : List String) (envf : Nat → RepoEnv) (i : Nat),
        analyzeLoop company_identifier since envf (url :: rest) i
          = processRepo company_identifier since url (envf i)
            :: analyzeLoop company_identifier since envf rest (i + 1) := by
  constructor
  · simp [processRepo, h, analysisBlock]
  · intro rest envf i; rfl

/-- Witness for the amended C4 at a concrete failing clone. -/
theorem sync_failure_report_amended_witness :
    processRepo "acme" 0 "https://h/o/r.git" cloneFailRepoEnv
      = { repo_name := repoNameOfUrl "https://h/o/r.git"
          repo_url := "https://h/o/r.git"
          error := some ("Error processing commits: " ++ noneAttrMsg)
          commits := some [] } :=
  (sync_failure_report_amended "acme" 0 "https://h/o/r.git" cloneFailRepoEnv rfl).1

/-- C8 (counterexample): the derived short name removes EVERY occurrence of
".git" in the final path segment, not only a trailing suffix: the segment
"my.gitfoo.git" yields "myfoo", while stripping only the trailing suffix
would yield "my.gitfoo". -/
theorem repo_name_counterexample :
    repoNameOfUrl "https://h/o/my.gitfoo.git" = "myfoo"
    ∧ repoNameOfUrl "https://h/o/my.gitfoo.git" ≠ "my.gitfoo" := by decide

/-- C8 (amended): the derived short name is the final path segment with every
occurrence of ".git" removed; in particular, when ".git" occurs in the
segment only as the trailing suffix, the name is the segment with that suffix
stripped and all other characters untouched. -/
theorem repo_name_trailing_suffix (url : String) (base : List Char)
    (h1 : lastSegment url.toList = base ++ gitPat)
    (h2 : strContainsList gitPat base = false) :
    repoNameOfUrl url = String.mk base := by
  unfold repoNameOfUrl
  rw [h1, removeAll_append_gitPat base h2]

/-- Witness for the amended C8 at a concrete URL. -/
theorem repo_name_trailing_suffix_witness :
    repoNameOfUrl "https://github.com/org/repo.git" = String.mk ("repo".toList) :=
  repo_name_trailing_suffix "https://github.com/org/repo.git" ("repo".toList)
    (by decide) (by decide)

/-- C9 (counterexample): invoked directly with an empty URL list, an empty
identifier and a non-positive lookback, the core does not fail fast — it
returns a success dict with an empty `commit_data` list and no error. -/
theorem empty_inputs_counterexample :
    (analyzeRealGitCommits [] "" 0 0 none (fun _ => cloneFailRepoEnv)).topError = none
    ∧ (analyzeRealGitCommits [] "" 0 0 none (fun _ => cloneFailRepoEnv)).commitData
        = some []
    ∧ (analyzeRealGitCommits [] "" 0 0 none (fun _ => cloneFailRepoEnv)).message
        = some "Commit analysis complete." :=
  ⟨rfl, rfl, rfl⟩

/-- C9 (amended): `analyze_real_git_commits` performs no defensive input
validation: an empty repository list yields a successful empty report, an
empty organization identifier matches every commit, and a non-positive
`months_back` merely pushes the cut-off to or past `now`; these conditions
are screened only by the excluded CLI layer. -/
theorem no_input_validation :
    (∀ (company_identifier : String) (months_back : Int) (now : Int)
        (envf : Nat → RepoEnv),
        analyzeRealGitCommits [] company_identifier months_back now none envf
          = { commitData := some []
              message := some "Commit analysis complete."
              topError := none })
    ∧ (∀ c : Commit, matchesCompany "" c = true)
    ∧ (∀ (now months_back : Int), months_back ≤ 0 → now ≤ sinceDate now months_back) := by
  refine ⟨fun _ _ _ _ => rfl, ?_, ?_⟩
  · intro c
    unfold matchesCompany
    simp [lowerList, strContainsList_nil]
  · intro now months_back h
    unfold sinceDate
    have h30 : months_back * 30 * 86400 = months_back * 2592000 := by ring
    rw [h30]
    omega

/-- Witness for the amended C9: with `months_back = -1` the cut-off is not
before `now`. -/
theorem no_input_validation_witness : (0 : Int) ≤ sinceDate 0 (-1) :=
  no_input_validation.2.2 0 (-1) (by decide)
